import Mathlib

/-!
Formal model of the install/update/launch orchestration core of
src/launcher.py (class LauncherCore).  Strings are modelled as lists of
characters so that the substring tests done with the Python `in`
operator become `List.IsInfix`; Python integers are modelled as `Int`;
the float arithmetic of the progress aggregator is modelled with exact
rationals.  Filesystem effects and network calls are modelled by
explicit environment records whose fields give the outcome of each
external operation, and the directory contents touched by the modpack
stage are modelled as a list of entries.
-/

/-- Character-list model of a Python string. -/
abbrev Str := List Char

/-! ### Progress aggregator (src/launcher.py lines 126-191) -/

/-- Shared progress state of LauncherCore: the allocated sub-range of the
0-100 bar for the current task and the library-reported max/current ticks. -/
structure ProgressState where
  current_task_progress_start : ℚ
  current_task_progress_end : ℚ
  lib_max_progress : Int
  lib_current_progress : Int
deriving DecidableEq

/-- Model of LauncherCore._callback_set_progress (lines 154-175): stores the
new tick value and returns the absolute progress emitted to the status sink,
namely start + (value / max) * (end - start) when max > 0 and start otherwise. -/
def callback_set_progress (st : ProgressState) (value : Int) : ProgressState × ℚ :=
  let st2 := { st with lib_current_progress := value }
  let emitted : ℚ :=
    if 0 < st.lib_max_progress then
      st.current_task_progress_start +
        ((value : ℚ) / (st.lib_max_progress : ℚ)) *
          (st.current_task_progress_end - st.current_task_progress_start)
    else st.current_task_progress_start
  (st2, emitted)

/-- Sequence of progress-tick callbacks within one stage: each call threads
the updated state, and the emitted absolute progress values are collected in
call order. -/
def run_progress_calls (st : ProgressState) : List Int → List ℚ
  | [] => []
  | v :: vs =>
    (callback_set_progress st v).2 :: run_progress_calls (callback_set_progress st v).1 vs

theorem run_progress_calls_eq_map (st : ProgressState) (vs : List Int) :
    run_progress_calls st vs = vs.map fun v => (callback_set_progress st v).2 := by
  induction vs generalizing st with
  | nil => rfl
  | cons v vs ih =>
    show (callback_set_progress st v).2
        :: run_progress_calls (callback_set_progress st v).1 vs = _
    rw [ih]
    rfl

theorem callback_emitted_mono {st : ProgressState} {v w : Int}
    (hr : st.current_task_progress_start ≤ st.current_task_progress_end)
    (hm : 0 < st.lib_max_progress) (hvw : v ≤ w) :
    (callback_set_progress st v).2 ≤ (callback_set_progress st w).2 := by
  have hmq : (0 : ℚ) < (st.lib_max_progress : ℚ) := by exact_mod_cast hm
  have hvwq : (v : ℚ) ≤ (w : ℚ) := by exact_mod_cast hvw
  show (if 0 < st.lib_max_progress then _ else _ : ℚ) ≤
    (if 0 < st.lib_max_progress then _ else _ : ℚ)
  rw [if_pos hm, if_pos hm]
  apply add_le_add_left
  exact mul_le_mul_of_nonneg_right
    ((div_le_div_iff_of_pos_right hmq).mpr hvwq) (sub_nonneg.mpr hr)

/-- C7: within one stage whose allocated range satisfies end >= start, any
sequence of progress-tick callbacks with non-decreasing tick values and an
unchanged positive maximum produces a non-decreasing sequence of absolute
progress values at the status sink. -/
theorem progress_monotone (st : ProgressState) (vs : List Int)
    (hr : st.current_task_progress_start ≤ st.current_task_progress_end)
    (hm : 0 < st.lib_max_progress)
    (hvs : vs.Chain' (· ≤ ·)) :
    (run_progress_calls st vs).Chain' (· ≤ ·) := by
  rw [run_progress_calls_eq_map, List.chain'_map]
  exact hvs.imp fun a b hab => callback_emitted_mono hr hm hab

theorem progress_monotone_witness :
    (0 : ℚ) ≤ 100 ∧ (0 : Int) < 10 ∧
    ([1, 5, 5, 9] : List Int).Chain' (· ≤ ·) ∧
    (run_progress_calls ⟨0, 100, 10, 0⟩ [1, 5, 5, 9]).Chain' (· ≤ ·) :=
  ⟨by norm_num, by norm_num,
    by simp [List.chain'_cons, List.chain'_singleton],
    progress_monotone ⟨0, 100, 10, 0⟩ [1, 5, 5, 9] (by norm_num) (by norm_num)
      (by simp [List.chain'_cons, List.chain'_singleton])⟩

/-- C10: the progress-tick callback performs no clamping: with a positive
maximum the emitted absolute progress is exactly
start + (value / max) * (end - start), so a tick value greater than the
declared maximum drives the emitted progress past the allocated end of the
stage (and hence past 100 when the end of the range is 100). -/
theorem progress_no_clamping (st : ProgressState) (v : Int)
    (hm : 0 < st.lib_max_progress) :
    (callback_set_progress st v).2 =
      st.current_task_progress_start +
        ((v : ℚ) / (st.lib_max_progress : ℚ)) *
          (st.current_task_progress_end - st.current_task_progress_start) ∧
    (st.current_task_progress_start < st.current_task_progress_end →
      st.lib_max_progress < v →
      st.current_task_progress_end < (callback_set_progress st v).2) := by
  have hmq : (0 : ℚ) < (st.lib_max_progress : ℚ) := by exact_mod_cast hm
  have hval : (callback_set_progress st v).2 =
      st.current_task_progress_start +
        ((v : ℚ) / (st.lib_max_progress : ℚ)) *
          (st.current_task_progress_end - st.current_task_progress_start) := by
    show (if 0 < st.lib_max_progress then _ else _ : ℚ) = _
    rw [if_pos hm]
  refine ⟨hval, fun hlt hmv => ?_⟩
  have hvq : (st.lib_max_progress : ℚ) < (v : ℚ) := by exact_mod_cast hmv
  have hone : (1 : ℚ) < (v : ℚ) / (st.lib_max_progress : ℚ) :=
    (one_lt_div hmq).mpr hvq
  have hpos : (0 : ℚ) <
      st.current_task_progress_end - st.current_task_progress_start :=
    sub_pos.mpr hlt
  have := mul_lt_mul_of_pos_right hone hpos
  rw [one_mul] at this
  have h2 := add_lt_add_left this st.current_task_progress_start
  rw [hval]
  calc st.current_task_progress_end
      = st.current_task_progress_start +
        (st.current_task_progress_end - st.current_task_progress_start) := by ring
    _ < _ := h2

theorem progress_no_clamping_witness :
    (0 : Int) < 10 ∧
    (callback_set_progress ⟨0, 100, 10, 0⟩ 20).2 = 200 ∧
    (100 : ℚ) < (callback_set_progress ⟨0, 100, 10, 0⟩ 20).2 := by
  have h := progress_no_clamping ⟨0, 100, 10, 0⟩ 20 (by norm_num)
  refine ⟨by norm_num, ?_, ?_⟩
  · rw [h.1]; norm_num
  · exact h.2 (by norm_num) (by norm_num)

/-! ### Content bundle synchronizer (src/launcher.py lines 692-923) -/

/-- Entry of the mods directory: a file (or symlink) or a subdirectory with
its own entries. -/
inductive FsEntry where
  | file (name : Str)
  | dir (name : Str) (children : List FsEntry)

/-- Truthiness of the optional mods_url field: Python bool(mods_url) is false
exactly on None and on the empty string. -/
def urlPresent : Option Str → Bool
  | none => false
  | some s => !s.isEmpty

/-- Model of LauncherCore._adjust_nested_mod_directory (lines 898-923) on the
path where every filesystem move and the final rmdir succeed: when the mods
directory consists of exactly one entry and that entry is a directory, its
children are hoisted one level and the wrapper directory is removed;
otherwise the contents are left as they are. -/
def adjust_nested_mod_directory : List FsEntry → List FsEntry
  | [FsEntry.dir _ children] => children
  | entries => entries

/-- Boolean test used to state the post-normalization claim: the directory
consists of exactly one entry and that entry is a directory. -/
def isSingleDir : List FsEntry → Bool
  | [FsEntry.dir _ _] => true
  | _ => false

/-- Outcomes of the external operations performed by the modpack stage:
whether clearing the mods folder succeeds, whether the download succeeds,
and the entries produced by a successful extraction (`none` models a
corrupted archive or an extraction error).  The two leftover fields give the
partial directory contents after a failed clear and after a failed
extraction. -/
structure ModpackEnv where
  clearOk : Bool
  downloadOk : Bool
  extractResult : Option (List FsEntry)
  clearLeftover : List FsEntry
  extractLeftover : List FsEntry

/-- Result of the modpack stage: the returned boolean, the in-memory
installed_launcher_version field afterwards, and the mods directory
contents afterwards. -/
structure ModpackResult where
  ok : Bool
  installed_launcher_version : Int
  mods : List FsEntry

/-- Model of LauncherCore._update_modpack (lines 692-847).  With no bundle
configured the stage clears a non-empty mods directory and reports success;
with a configured bundle and remote revision not above the local one it is a
no-op reporting success; otherwise it clears, downloads, extracts, adjusts
the structure and only then bumps the in-memory revision. -/
def update_modpack (mods_url : Option Str) (gist_launcher_version : Int)
    (installed_launcher_version : Int) (mods : List FsEntry)
    (env : ModpackEnv) : ModpackResult :=
  let modpack_configured := urlPresent mods_url
  let needs_mod_update := installed_launcher_version < gist_launcher_version
  if !modpack_configured then
    if !mods.isEmpty then
      if env.clearOk then ⟨true, installed_launcher_version, []⟩
      else ⟨false, installed_launcher_version, env.clearLeftover⟩
    else ⟨true, installed_launcher_version, mods⟩
  else if !needs_mod_update then ⟨true, installed_launcher_version, mods⟩
  else if !env.clearOk then ⟨false, installed_launcher_version, env.clearLeftover⟩
  else if !env.downloadOk then ⟨false, installed_launcher_version, []⟩
  else
    match env.extractResult with
    | none => ⟨false, installed_launcher_version, env.extractLeftover⟩
    | some extracted =>
        ⟨true, gist_launcher_version, adjust_nested_mod_directory extracted⟩

theorem update_modpack_update_path (url : Option Str) (g l : Int)
    (mods : List FsEntry) (env : ModpackEnv)
    (hconf : urlPresent url = true) (hgt : l < g) :
    update_modpack url g l mods env =
      if !env.clearOk then ⟨false, l, env.clearLeftover⟩
      else if !env.downloadOk then ⟨false, l, []⟩
      else match env.extractResult with
        | none => ⟨false, l, env.extractLeftover⟩
        | some extracted => ⟨true, g, adjust_nested_mod_directory extracted⟩ := by
  unfold update_modpack
  rw [hconf]
  simp [hgt]

/-- C2 counterexample: a configured bundle with remote revision 1 above local
revision 0 whose archive wraps its payload twice (a single directory holding
a single directory).  The sync succeeds, yet after structure normalization
the mods directory consists of exactly one entry that is a directory, which
refutes the post-normalization conjunct of the claim. -/
theorem modpack_single_dir_counterexample :
    urlPresent (some ['u']) = true ∧ (0 : Int) < 1 ∧
    (update_modpack (some ['u']) 1 0 []
        ⟨true, true, some [FsEntry.dir ['a'] [FsEntry.dir ['b'] []]], [], []⟩).ok
      = true ∧
    isSingleDir (update_modpack (some ['u']) 1 0 []
        ⟨true, true, some [FsEntry.dir ['a'] [FsEntry.dir ['b'] []]], [], []⟩).mods
      = true :=
  ⟨rfl, by norm_num, rfl, rfl⟩

/-- C2 (amended): for every content-bundle sync with a configured bundle and
remote revision above the local one, a successful sync leaves the in-memory
local revision equal to the remote revision and the mods directory equal to
the extracted entries after structure normalization; every failing path
leaves the revision unchanged, so the revision is assigned only after
extraction has succeeded.  Structure normalization replaces a single
top-level wrapper directory by its children (so the wrapper itself is gone),
but when the wrapper held exactly one directory the normalized directory can
still consist of a single directory entry. -/
theorem update_modpack_revision_bump (url : Option Str) (g l : Int)
    (mods : List FsEntry) (env : ModpackEnv)
    (hconf : urlPresent url = true) (hgt : l < g) :
    ((update_modpack url g l mods env).ok = true →
      (update_modpack url g l mods env).installed_launcher_version = g ∧
      ∃ extracted, env.extractResult = some extracted ∧
        (update_modpack url g l mods env).mods =
          adjust_nested_mod_directory extracted) ∧
    ((update_modpack url g l mods env).ok = false →
      (update_modpack url g l mods env).installed_launcher_version = l) ∧
    (∀ name children,
      adjust_nested_mod_directory [FsEntry.dir name children] = children) := by
  have h := update_modpack_update_path url g l mods env hconf hgt
  refine ⟨?_, ?_, fun name children => rfl⟩ <;>
  · rw [h]
    cases hc : env.clearOk <;> cases hd : env.downloadOk <;>
      cases he : env.extractResult <;> simp

theorem update_modpack_revision_bump_witness :
    (update_modpack (some ['u']) 1 0 []
      ⟨true, true, some [], [], []⟩).installed_launcher_version = 1 :=
  ((update_modpack_revision_bump (some ['u']) 1 0 []
    ⟨true, true, some [], [], []⟩ rfl (by norm_num)).1 rfl).1

/-- C3 counterexample: with no bundle configured and remote revision 0 equal
to the local revision 0, the sync reports success but clears a non-empty
mods directory, so the contents are not left untouched. -/
theorem modpack_untouched_counterexample :
    (0 : Int) ≤ 0 ∧
    (update_modpack none 0 0 [FsEntry.file ['a']]
        ⟨true, true, none, [], []⟩).ok = true ∧
    (update_modpack none 0 0 [FsEntry.file ['a']]
        ⟨true, true, none, [], []⟩).mods ≠ [FsEntry.file ['a']] := by
  refine ⟨le_rfl, rfl, fun h => ?_⟩
  have h0 : (update_modpack none 0 0 [FsEntry.file ['a']]
      ⟨true, true, none, [], []⟩).mods = [] := rfl
  rw [h0] at h
  exact List.cons_ne_nil _ _ h.symm

/-- C3 (amended): for every content-bundle sync where a bundle is configured
and the remote revision is at most the local revision, the sync reports
success, the mods directory contents are left untouched and the local
revision field is unchanged. -/
theorem update_modpack_up_to_date (url : Option Str) (g l : Int)
    (mods : List FsEntry) (env : ModpackEnv)
    (hconf : urlPresent url = true) (hle : g ≤ l) :
    update_modpack url g l mods env = ⟨true, l, mods⟩ := by
  unfold update_modpack
  rw [hconf]
  simp [not_lt.mpr hle]

theorem update_modpack_up_to_date_witness :
    urlPresent (some ['u']) = true ∧ (0 : Int) ≤ 0 ∧
    update_modpack (some ['u']) 0 0 [FsEntry.file ['a']]
        ⟨true, true, none, [], []⟩ = ⟨true, 0, [FsEntry.file ['a']]⟩ :=
  ⟨rfl, le_rfl, update_modpack_up_to_date (some ['u']) 0 0 [FsEntry.file ['a']]
    ⟨true, true, none, [], []⟩ rfl le_rfl⟩

/-! ### Engine installer (src/launcher.py lines 334-413) -/

/-- Outcomes of the external calls of _install_minecraft_version: for each
bounded attempt whether the library install call returns without raising,
and the installed-version identifier listing queried after exhausted retries
(`none` models the query itself raising). -/
structure EngineEnv where
  attempts : List Bool
  listing : Option (List Str)

/-- True when some attempt of the retry loop succeeds; the loop returns on
the first success. -/
def engine_attempts_succeed : List Bool → Bool
  | [] => false
  | ok :: rest => ok || engine_attempts_succeed rest

/-- Model of LauncherCore._install_minecraft_version (lines 334-413): returns
true as soon as one attempt of the install call succeeds; after all attempts
fail it queries the installed-version listing and returns true exactly when
the target version identifier is present, and false when the identifier is
absent or the query raises. -/
def install_minecraft_version (mc_version : Str) (env : EngineEnv) : Bool :=
  if engine_attempts_succeed env.attempts then true
  else match env.listing with
    | some ids => decide (mc_version ∈ ids)
    | none => false

theorem engine_attempts_all_fail {l : List Bool}
    (h : l.all (fun ok => !ok) = true) :
    engine_attempts_succeed l = false := by
  induction l with
  | nil => rfl
  | cons a l ih =>
    simp only [List.all_cons, Bool.and_eq_true, Bool.not_eq_true'] at h
    simp [engine_attempts_succeed, h.1, ih h.2]

/-- C4: when every bounded install attempt of the engine installer raises,
the stage returns success exactly when the target engine version identifier
is present in the installed-version listing queried afterwards, and
definitive failure when it is absent. -/
theorem install_minecraft_fallback (mc_version : Str) (env : EngineEnv)
    (ids : List Str)
    (hfail : env.attempts.all (fun ok => !ok) = true)
    (hlist : env.listing = some ids) :
    install_minecraft_version mc_version env = decide (mc_version ∈ ids) := by
  unfold install_minecraft_version
  rw [engine_attempts_all_fail hfail, hlist]
  simp

theorem install_minecraft_fallback_witness :
    install_minecraft_version ['1'] ⟨[false, false, false], some [['1']]⟩ = true ∧
    install_minecraft_version ['2'] ⟨[false, false, false], some [['1']]⟩ = false :=
  ⟨(install_minecraft_fallback ['1'] ⟨[false, false, false], some [['1']]⟩
      [['1']] (by decide) rfl).trans (by decide),
    (install_minecraft_fallback ['2'] ⟨[false, false, false], some [['1']]⟩
      [['1']] (by decide) rfl).trans (by decide)⟩

/-! ### Fabric loader installer (src/launcher.py lines 615-690) -/

/-- Entry of the installed-version listing: identifier and type string. -/
structure VersionEntry where
  id : Str
  vtype : Str

/-- Outcome of one attempt of the Fabric retry loop: whether the external
install call returns without raising, and the installed-version listing
queried afterwards (`none` models the query raising). -/
structure FabricAttempt where
  installOk : Bool
  listing : Option (List VersionEntry)

/-- Marker substring looked for in version identifiers. -/
def fabricLoaderMarker : Str := ("fabric-loader").data

/-- Constructed fallback identifier fabric-loader-{loader_version}-{mc_version}
(line 664). -/
def fabric_fallback_id (mc_version loader_version : Str) : Str :=
  ("fabric-loader-").data ++ loader_version ++ ("-").data ++ mc_version

/-- Structural match used by the post-install scan (line 658): a release-typed
entry whose identifier contains the engine version, the fabric-loader marker
and the loader version as substrings. -/
def fabricMatch (mc_version loader_version : Str) (v : VersionEntry) : Bool :=
  decide (v.vtype = ("release").data) && decide (mc_version <:+: v.id) &&
    decide (fabricLoaderMarker <:+: v.id) && decide (loader_version <:+: v.id)

/-- Post-install verification scan of _install_fabric (lines 655-670): the
first structurally matching entry wins; otherwise the constructed fallback
identifier is accepted only when it is itself present in the listing. -/
def fabric_scan (mc_version loader_version : Str)
    (listing : List VersionEntry) : Option Str :=
  match listing.find? (fabricMatch mc_version loader_version) with
  | some v => some v.id
  | none =>
    if listing.any fun v =>
        decide (v.id = fabric_fallback_id mc_version loader_version) then
      some (fabric_fallback_id mc_version loader_version)
    else none

/-- Model of LauncherCore._install_fabric (lines 615-690) over the sequence
of bounded retry attempts: an attempt whose install call raises, whose
listing query raises or whose scan finds nothing falls through to the next
attempt; exhausting the attempts returns None. -/
def install_fabric (mc_version loader_version : Str) :
    List FabricAttempt → Option Str
  | [] => none
  | a :: rest =>
    match a.installOk, a.listing with
    | true, some listing =>
      match fabric_scan mc_version loader_version listing with
      | some id => some id
      | none => install_fabric mc_version loader_version rest
    | _, _ => install_fabric mc_version loader_version rest

theorem install_fabric_cons_true (mc lv : Str) (listing : List VersionEntry)
    (rest : List FabricAttempt) :
    install_fabric mc lv (⟨true, some listing⟩ :: rest) =
      match fabric_scan mc lv listing with
      | some id => some id
      | none => install_fabric mc lv rest := rfl

theorem install_fabric_cons_fail (mc lv : Str)
    (lst : Option (List VersionEntry)) (rest : List FabricAttempt) :
    install_fabric mc lv (⟨false, lst⟩ :: rest) =
      install_fabric mc lv rest := rfl

theorem install_fabric_cons_none (mc lv : Str) (rest : List FabricAttempt) :
    install_fabric mc lv (⟨true, none⟩ :: rest) =
      install_fabric mc lv rest := rfl

theorem fallback_contains (mc lv : Str) :
    mc <:+: fabric_fallback_id mc lv ∧
    fabricLoaderMarker <:+: fabric_fallback_id mc lv ∧
    lv <:+: fabric_fallback_id mc lv := by
  refine ⟨⟨("fabric-loader-").data ++ lv ++ ("-").data, [], ?_⟩,
    ⟨[], ("-").data ++ lv ++ ("-").data ++ mc, ?_⟩,
    ⟨("fabric-loader-").data, ("-").data ++ mc, ?_⟩⟩
  · simp [fabric_fallback_id]
  · simp [fabric_fallback_id, fabricLoaderMarker]
  · simp [fabric_fallback_id]

theorem fabric_scan_some (mc lv : Str) (listing : List VersionEntry)
    (id : Str) (h : fabric_scan mc lv listing = some id) :
    (mc <:+: id ∧ fabricLoaderMarker <:+: id ∧ lv <:+: id) ∧
    ∃ v ∈ listing, v.id = id := by
  unfold fabric_scan at h
  cases hf : listing.find? (fabricMatch mc lv) with
  | some v =>
    rw [hf] at h
    obtain rfl : v.id = id := Option.some.inj h
    have hm := List.find?_some hf
    simp only [fabricMatch, Bool.and_eq_true, decide_eq_true_eq] at hm
    exact ⟨⟨hm.1.1.2, hm.1.2, hm.2⟩, v, List.mem_of_find?_eq_some hf, rfl⟩
  | none =>
    rw [hf] at h
    by_cases hany : (listing.any fun v =>
        decide (v.id = fabric_fallback_id mc lv)) = true
    · rw [if_pos hany] at h
      obtain rfl : fabric_fallback_id mc lv = id := Option.some.inj h
      obtain ⟨v, hv, hveq⟩ := List.any_eq_true.mp hany
      rw [decide_eq_true_eq] at hveq
      exact ⟨fallback_contains mc lv, v, hv, hveq⟩
    · rw [if_neg hany] at h
      cases h

theorem fabric_scan_none (mc lv : Str) (listing : List VersionEntry)
    (hno : ∀ v ∈ listing,
      ¬(mc <:+: v.id ∧ fabricLoaderMarker <:+: v.id ∧ lv <:+: v.id))
    (hfb : ∀ v ∈ listing, v.id ≠ fabric_fallback_id mc lv) :
    fabric_scan mc lv listing = none := by
  unfold fabric_scan
  have hfind : listing.find? (fabricMatch mc lv) = none := by
    rw [List.find?_eq_none]
    intro v hv hmatch
    simp only [fabricMatch, Bool.and_eq_true, decide_eq_true_eq] at hmatch
    exact hno v hv ⟨hmatch.1.1.2, hmatch.1.2, hmatch.2⟩
  have hany : (listing.any fun v =>
      decide (v.id = fabric_fallback_id mc lv)) = false := by
    rw [List.any_eq_false]
    intro v hv
    simp only [decide_eq_true_eq]
    exact hfb v hv
  rw [hfind, hany]
  simp

/-- C5: after a Fabric install call that raises no error, the stage only ever
returns an identifier that is present in the installed-version listing of one
of its attempts and that contains the engine version, the fabric-loader
marker and the loader version as substrings (in particular the constructed
fallback identifier is accepted only when it is itself present in the
listing); and when on every attempt neither the structural lookup nor the
fallback lookup succeeds, the stage returns None, never a success token. -/
theorem install_fabric_verification (mc_version loader_version : Str)
    (attempts : List FabricAttempt) :
    (∀ id, install_fabric mc_version loader_version attempts = some id →
      (mc_version <:+: id ∧ fabricLoaderMarker <:+: id ∧
        loader_version <:+: id) ∧
      ∃ a ∈ attempts, ∃ listing, a.listing = some listing ∧
        ∃ v ∈ listing, v.id = id) ∧
    ((∀ a ∈ attempts, ∀ listing, a.listing = some listing →
        (∀ v ∈ listing, ¬(mc_version <:+: v.id ∧
          fabricLoaderMarker <:+: v.id ∧ loader_version <:+: v.id)) ∧
        (∀ v ∈ listing, v.id ≠ fabric_fallback_id mc_version loader_version)) →
      install_fabric mc_version loader_version attempts = none) := by
  induction attempts with
  | nil =>
    refine ⟨fun id h => ?_, fun _ => rfl⟩
    cases h
  | cons a rest ih =>
    obtain ⟨ok, lst⟩ := a
    constructor
    · intro id h
      cases ok with
      | false =>
        rw [install_fabric_cons_fail] at h
        obtain ⟨hp, a2, ha2, hr⟩ := ih.1 id h
        exact ⟨hp, a2, List.mem_cons_of_mem _ ha2, hr⟩
      | true =>
        cases lst with
        | none =>
          rw [install_fabric_cons_none] at h
          obtain ⟨hp, a2, ha2, hr⟩ := ih.1 id h
          exact ⟨hp, a2, List.mem_cons_of_mem _ ha2, hr⟩
        | some listing =>
          rw [install_fabric_cons_true] at h
          cases hscan : fabric_scan mc_version loader_version listing with
          | some id0 =>
            rw [hscan] at h
            obtain rfl : id0 = id := Option.some.inj h
            obtain ⟨hprops, v, hv, hvid⟩ :=
              fabric_scan_some mc_version loader_version listing id0 hscan
            exact ⟨hprops, ⟨true, some listing⟩,
              List.mem_cons_self _ _, listing, rfl, v, hv, hvid⟩
          | none =>
            rw [hscan] at h
            obtain ⟨hp, a2, ha2, hr⟩ := ih.1 id h
            exact ⟨hp, a2, List.mem_cons_of_mem _ ha2, hr⟩
    · intro hno
      cases ok with
      | false =>
        rw [install_fabric_cons_fail]
        exact ih.2 fun a2 ha2 => hno a2 (List.mem_cons_of_mem _ ha2)
      | true =>
        cases lst with
        | none =>
          rw [install_fabric_cons_none]
          exact ih.2 fun a2 ha2 => hno a2 (List.mem_cons_of_mem _ ha2)
        | some listing =>
          rw [install_fabric_cons_true]
          have hsc := fabric_scan_none mc_version loader_version listing
            (hno ⟨true, some listing⟩ (List.mem_cons_self _ _) listing rfl).1
            (hno ⟨true, some listing⟩ (List.mem_cons_self _ _) listing rfl).2
          rw [hsc]
          exact ih.2 fun a2 ha2 => hno a2 (List.mem_cons_of_mem _ ha2)

theorem install_fabric_verification_witness :
    install_fabric ['1'] ['2'] [⟨true, some []⟩, ⟨false, none⟩] = none := by
  refine (install_fabric_verification ['1'] ['2'] _).2 ?_
  intro a ha listing hl
  rcases List.mem_cons.mp ha with rfl | ha2
  · obtain rfl : ([] : List VersionEntry) = listing := Option.some.inj hl
    exact ⟨fun v hv => absurd hv (List.not_mem_nil v),
      fun v hv => absurd hv (List.not_mem_nil v)⟩
  · rcases List.mem_cons.mp ha2 with rfl | ha3
    · cases hl
    · exact absurd ha3 (List.not_mem_nil a)

/-! ### Forge loader installer (src/launcher.py lines 415-613) -/

/-- Observable actions of the Forge install stage, in the order the stage
performs them. -/
inductive ForgeEvent where
  | headProbe
  | downloadAttempt (n : Nat)
  | runInstaller
  | verifyVersions
deriving DecidableEq

/-- Outcomes of the external operations of _install_forge: the resolved path
of the java executable (`none` when `java` is not on the system path), the
outcome of the HEAD availability probe, the outcome of each numbered
download attempt, the installer child-process return code (`none` models a
timeout or another exception), and the installed-version listing used for
verification (`none` models the query raising). -/
structure ForgeEnv where
  javaPath : Option Str
  headOk : Bool
  downloadOk : Nat → Bool
  installerReturncode : Option Int
  listing : Option (List Str)

/-- Bounded download retry loop of _install_forge (lines 477-537): attempt
numbers start at i and at most fuel attempts are made; the loop stops at the
first success and records every attempt made. -/
def forge_download_loop (ok : Nat → Bool) : Nat → Nat → Bool × List ForgeEvent
  | _, 0 => (false, [])
  | i, fuel + 1 =>
    if ok i then (true, [ForgeEvent.downloadAttempt i])
    else
      let r := forge_download_loop ok (i + 1) fuel
      (r.1, ForgeEvent.downloadAttempt i :: r.2)

/-- Model of LauncherCore._install_forge (lines 415-613): the java
pre-flight check comes first and its failure is an immediate definitive
failure; then the HEAD availability probe, up to three download attempts,
the installer child process, and the verification of the constructed
identifier {mc}-forge-{loader} against the installed-version listing.  The
returned event list records which external actions were performed. -/
def install_forge (mc_version loader_version : Str) (env : ForgeEnv) :
    Option Str × List ForgeEvent :=
  let version_id := mc_version ++ ("-forge-").data ++ loader_version
  match env.javaPath with
  | none => (none, [])
  | some _ =>
    if !env.headOk then (none, [ForgeEvent.headProbe])
    else
      let dl := forge_download_loop env.downloadOk 1 3
      if !dl.1 then (none, ForgeEvent.headProbe :: dl.2)
      else
        match env.installerReturncode with
        | none => (none, ForgeEvent.headProbe :: dl.2 ++ [ForgeEvent.runInstaller])
        | some rc =>
          if rc ≠ 0 then
            (none, ForgeEvent.headProbe :: dl.2 ++ [ForgeEvent.runInstaller])
          else
            match env.listing with
            | none =>
              (none, ForgeEvent.headProbe :: dl.2 ++
                [ForgeEvent.runInstaller, ForgeEvent.verifyVersions])
            | some ids =>
              (if version_id ∈ ids then some version_id else none,
                ForgeEvent.headProbe :: dl.2 ++
                  [ForgeEvent.runInstaller, ForgeEvent.verifyVersions])

/-- C8: when the java executable is not resolvable on the system path, the
Forge install stage returns definitive failure immediately: no availability
probe, no download attempt and no retry is performed (the event list is
empty). -/
theorem install_forge_requires_java (mc_version loader_version : Str)
    (env : ForgeEnv) :
    install_forge mc_version loader_version
      { env with javaPath := none } = (none, []) := rfl

/-! ### Launch argument construction (src/launcher.py lines 932-947) -/

/-- Python str.strip: leading and trailing whitespace removed. -/
def pyStrip (s : Str) : Str :=
  ((s.dropWhile Char.isWhitespace).reverse.dropWhile Char.isWhitespace).reverse

/-- Python str.upper on the characters of the setting. -/
def pyUpper (s : Str) : Str := s.map Char.toUpper

/-- Match of the strict allocation pattern, one or more digits followed by G
or M (the regex used at line 940). -/
def matchRam (s : Str) : Bool :=
  match s.reverse with
  | [] => false
  | c :: rest => (c == 'G' || c == 'M') && !rest.isEmpty && rest.all Char.isDigit

/-- Prefix identifying the memory-ceiling flag. -/
def xmxPrefix : Str := ("-Xmx").data

/-- Model of the JVM-argument construction of LauncherCore._launch_minecraft
(lines 932-947): the locally configured allocation string is stripped and
uppercased; when it matches the strict pattern every argument starting with
-Xmx is removed from the manifest-declared list and the flag derived from
the local setting is appended; otherwise the manifest-declared list is used
unchanged. -/
def build_jvm_args (jvm_args : List Str) (max_ram : Str) : List Str :=
  let m := pyUpper (pyStrip max_ram)
  if matchRam m then
    (jvm_args.filter fun a => !xmxPrefix.isPrefixOf a) ++ [xmxPrefix ++ m]
  else jvm_args

theorem install_forge_requires_java_witness :
    install_forge ['1'] ['2']
      { (⟨some ['j'], true, fun _ => true, some 0, some []⟩ : ForgeEnv) with
        javaPath := none } = (none, []) :=
  install_forge_requires_java ['1'] ['2']
    ⟨some ['j'], true, fun _ => true, some 0, some []⟩

/-- C9: when the locally configured allocation string matches the strict
numeric+unit pattern after trimming and uppercasing, the launch argument
list equals the manifest-declared list with every occurrence of the
memory-ceiling flag removed plus the single flag derived from the local
setting, and contains exactly one memory-ceiling flag; when the string does
not match the pattern, the manifest-declared list is passed through
unchanged. -/
theorem build_jvm_args_max_ram (jvm_args : List Str) (max_ram : Str) :
    if matchRam (pyUpper (pyStrip max_ram)) = true then
      build_jvm_args jvm_args max_ram =
        (jvm_args.filter fun a => !xmxPrefix.isPrefixOf a) ++
          [xmxPrefix ++ pyUpper (pyStrip max_ram)] ∧
      (build_jvm_args jvm_args max_ram).countP
        (fun a => xmxPrefix.isPrefixOf a) = 1 ∧
      ∀ a ∈ jvm_args, xmxPrefix.isPrefixOf a = true →
        a ∉ jvm_args.filter fun a => !xmxPrefix.isPrefixOf a
    else build_jvm_args jvm_args max_ram = jvm_args := by
  by_cases hm : matchRam (pyUpper (pyStrip max_ram)) = true
  · rw [if_pos hm]
    have hb : build_jvm_args jvm_args max_ram =
        (jvm_args.filter fun a => !xmxPrefix.isPrefixOf a) ++
          [xmxPrefix ++ pyUpper (pyStrip max_ram)] := by
      unfold build_jvm_args
      simp [hm]
    refine ⟨hb, ?_, ?_⟩
    · rw [hb, List.countP_append]
      have h0 : (jvm_args.filter fun a => !xmxPrefix.isPrefixOf a).countP
          (fun a => xmxPrefix.isPrefixOf a) = 0 := by
        rw [List.countP_eq_zero]
        intro a ha
        have hfa := (List.mem_filter.mp ha).2
        simp only [Bool.not_eq_true'] at hfa
        simp [hfa]
      have h1 : xmxPrefix.isPrefixOf
          (xmxPrefix ++ pyUpper (pyStrip max_ram)) = true := by
        rw [List.isPrefixOf_iff_prefix]
        exact List.prefix_append _ _
      rw [h0]
      simp [List.countP_cons, h1]
    · intro a _ hpre hmem
      have hfa := (List.mem_filter.mp hmem).2
      rw [hpre] at hfa
      cases hfa
  · rw [if_neg hm]
    unfold build_jvm_args
    simp only [Bool.not_eq_true] at hm
    simp [hm]

theorem build_jvm_args_max_ram_witness :
    build_jvm_args [("-Xmx2G").data, ("-Xms1G").data] (("4g").data) =
      [("-Xms1G").data, ("-Xmx4G").data] := by
  have h := build_jvm_args_max_ram
    [("-Xmx2G").data, ("-Xms1G").data] (("4g").data)
  rw [if_pos (by decide)] at h
  rw [h.1]
  decide

/-! ### Orchestrator (src/launcher.py lines 203-270 and 988-1098) -/

/-- Python truthiness of an optional string value: None and the empty string
are falsy. -/
def pyTruthy : Option Str → Bool
  | none => false
  | some s => !s.isEmpty

/-- Recognized fields of the fetched remote manifest (spec section 6); the
loader_type field is kept as the already-stringified raw value and `none`
models an absent field. -/
structure RemoteConfig where
  mc_version : Option Str
  loader_type : Option Str
  loader_version : Option Str
  mods_url : Option Str
  launcher_version : Int
  jvm_args : List Str

/-- Persisted local settings record (keys of launcher_config.json). -/
structure LocalConfig where
  nickname : Str
  installed_launcher_version : Int
  gist_url : Str
  max_ram : Str

/-- Result of save_local_config: the returned boolean, the in-memory config
afterwards, and whether the settings file was written. -/
structure SaveResult where
  ok : Bool
  cfg : LocalConfig
  wrote : Bool

/-- Model of LauncherCore.save_local_config (lines 244-270): an empty
nickname returns false without touching the in-memory config or the file;
otherwise the provided fields are merged into the in-memory config and the
record is written (writeOk gives the outcome of the file write, which is
returned). -/
def save_local_config (cfg : LocalConfig) (nickname : Str)
    (gist_url : Option Str) (max_ram : Option Str) (writeOk : Bool) :
    SaveResult :=
  if nickname.isEmpty then ⟨false, cfg, false⟩
  else
    let cfg1 := { cfg with nickname := nickname }
    let cfg2 := match gist_url with
      | some g => { cfg1 with gist_url := g }
      | none => cfg1
    let cfg3 := match max_ram with
      | some m => { cfg2 with max_ram := m }
      | none => cfg2
    ⟨writeOk, cfg3, writeOk⟩

/-- Normalization of the raw loader_type manifest value performed at line
1032: an absent value becomes the empty string, a present value is
lowercased. -/
def loader_type_norm : Option Str → Str
  | none => []
  | some s => s.map Char.toLower

/-- Stages invoked during an orchestrated run, in invocation order. -/
inductive RunEvent where
  | fetchConfig
  | ensureDirs
  | installVanilla (mc : Str)
  | installForgeStage (mc lv : Str)
  | installFabricStage (mc lv : Str)
  | noLoader
  | updateModpackStage
  | saveConfigStage
  | launch (version_id : Str)
deriving DecidableEq

/-- Outcomes of the external operations of run_tasks: the settings file
writes, the manifest fetch, directory creation, the three install stages,
the modpack sync and the final launch. -/
structure RunEnv where
  save1WriteOk : Bool
  fetchResult : Option RemoteConfig
  ensureDirsOk : Bool
  vanillaOk : Bool
  forgeResult : Option Str
  fabricResult : Option Str
  modpackOk : Bool
  save2WriteOk : Bool
  launchOk : Bool

/-- Result of an orchestrated run: overall success, the stage events in
order, the version identifier passed to the launch step (`none` when the
run aborts before launching) and whether any settings-file write happened. -/
structure RunResult where
  ok : Bool
  events : List RunEvent
  launchTarget : Option Str
  wrote : Bool

/-- Tail of run_tasks after the loader stage (lines 1068-1089): modpack
sync (failure aborts), the non-fatal settings save, and the launch of the
resolved version identifier. -/
def run_tail (env : RunEnv) (cfg1 : LocalConfig) (nickname : Str)
    (version_id : Str) (events : List RunEvent) (wrote1 : Bool) : RunResult :=
  let events2 := events ++ [RunEvent.updateModpackStage]
  if !env.modpackOk then ⟨false, events2, none, wrote1⟩
  else
    let s2 := save_local_config cfg1 nickname none none env.save2WriteOk
    ⟨env.launchOk,
      events2 ++ [RunEvent.saveConfigStage, RunEvent.launch version_id],
      some version_id, wrote1 || s2.wrote⟩

/-- Model of LauncherCore.run_tasks (lines 988-1098): nickname validation
and save (abort on failure), manifest fetch (abort on failure), directory
creation (abort on failure), required-field validation (missing or empty
mc_version aborts), engine install (abort on failure), loader dispatch on
the normalized loader kind and the truthiness of loader_version (an
unrecognized or absent kind or a missing loader version selects the vanilla
path), then modpack sync, settings save and launch. -/
def run_tasks (cfg : LocalConfig) (env : RunEnv) (nickname : Str) :
    RunResult :=
  let s1 := save_local_config cfg nickname none none env.save1WriteOk
  if !s1.ok then ⟨false, [], none, s1.wrote⟩
  else
    match env.fetchResult with
    | none => ⟨false, [RunEvent.fetchConfig], none, s1.wrote⟩
    | some rc =>
      let events0 := [RunEvent.fetchConfig, RunEvent.ensureDirs]
      if !env.ensureDirsOk then ⟨false, events0, none, s1.wrote⟩
      else
        match rc.mc_version with
        | none => ⟨false, events0, none, s1.wrote⟩
        | some mc =>
          if mc.isEmpty then ⟨false, events0, none, s1.wrote⟩
          else
            let events1 := events0 ++ [RunEvent.installVanilla mc]
            if !env.vanillaOk then ⟨false, events1, none, s1.wrote⟩
            else
              let lt := loader_type_norm rc.loader_type
              match rc.loader_version with
              | none =>
                run_tail env s1.cfg nickname mc
                  (events1 ++ [RunEvent.noLoader]) s1.wrote
              | some lv =>
                if lv.isEmpty then
                  run_tail env s1.cfg nickname mc
                    (events1 ++ [RunEvent.noLoader]) s1.wrote
                else if lt = ("forge").data then
                  match env.forgeResult with
                  | none =>
                    ⟨false, events1 ++ [RunEvent.installForgeStage mc lv],
                      none, s1.wrote⟩
                  | some vid =>
                    run_tail env s1.cfg nickname vid
                      (events1 ++ [RunEvent.installForgeStage mc lv]) s1.wrote
                else if lt = ("fabric").data then
                  match env.fabricResult with
                  | none =>
                    ⟨false, events1 ++ [RunEvent.installFabricStage mc lv],
                      none, s1.wrote⟩
                  | some vid =>
                    run_tail env s1.cfg nickname vid
                      (events1 ++ [RunEvent.installFabricStage mc lv]) s1.wrote
                else
                  run_tail env s1.cfg nickname mc
                    (events1 ++ [RunEvent.noLoader]) s1.wrote

theorem run_tail_props (env : RunEnv) (cfg1 : LocalConfig) (nickname : Str)
    (vid : Str) (events : List RunEvent) (wrote1 : Bool)
    (hmp : env.modpackOk = true) :
    (run_tail env cfg1 nickname vid events wrote1).launchTarget = some vid ∧
    (run_tail env cfg1 nickname vid events wrote1).events =
      events ++ [RunEvent.updateModpackStage, RunEvent.saveConfigStage,
        RunEvent.launch vid] := by
  unfold run_tail
  simp [hmp]

/-- C1: for every fetched manifest whose loader kind is absent or is not one
of the two recognized kinds, or whose loader version is missing or empty,
the run skips the loader install stage without error (the vanilla marker
event occurs and no loader install event does) and the version identifier
passed to the launch step equals the manifest engine version string. -/
theorem run_tasks_vanilla_path (cfg : LocalConfig) (env : RunEnv)
    (nickname : Str) (rc : RemoteConfig) (mc : Str)
    (hn : nickname.isEmpty = false)
    (hs : env.save1WriteOk = true)
    (hf : env.fetchResult = some rc)
    (hd : env.ensureDirsOk = true)
    (hmc : rc.mc_version = some mc)
    (hmc2 : mc.isEmpty = false)
    (hv : env.vanillaOk = true)
    (hforge : ¬(loader_type_norm rc.loader_type = ("forge").data ∧
      pyTruthy rc.loader_version = true))
    (hfabric : ¬(loader_type_norm rc.loader_type = ("fabric").data ∧
      pyTruthy rc.loader_version = true))
    (hmp : env.modpackOk = true) :
    (run_tasks cfg env nickname).launchTarget = some mc ∧
    RunEvent.noLoader ∈ (run_tasks cfg env nickname).events ∧
    ∀ m l,
      RunEvent.installForgeStage m l ∉ (run_tasks cfg env nickname).events ∧
      RunEvent.installFabricStage m l ∉ (run_tasks cfg env nickname).events := by
  have hrun : run_tasks cfg env nickname =
      run_tail env { cfg with nickname := nickname } nickname mc
        ([RunEvent.fetchConfig, RunEvent.ensureDirs,
          RunEvent.installVanilla mc, RunEvent.noLoader]) true := by
    unfold run_tasks
    simp only [save_local_config, hn, hs, hf, hd, hmc, hmc2, hv,
      Bool.false_eq_true, if_false, Bool.not_true, Bool.not_false,
      Bool.true_eq_false, if_true]
    cases hlv : rc.loader_version with
    | none => simp
    | some lv =>
      rw [hlv] at hforge hfabric
      cases hlve : lv.isEmpty with
      | true => simp [hlve]
      | false =>
        simp only [pyTruthy, hlve, Bool.not_false] at hforge hfabric
        have hforge2 : ¬(loader_type_norm rc.loader_type = ("forge").data) :=
          fun h => hforge ⟨h, trivial⟩
        have hfabric2 : ¬(loader_type_norm rc.loader_type = ("fabric").data) :=
          fun h => hfabric ⟨h, trivial⟩
        simp [hlve, hforge2, hfabric2]
  obtain ⟨hlt, hev⟩ := run_tail_props env { cfg with nickname := nickname }
    nickname mc ([RunEvent.fetchConfig, RunEvent.ensureDirs,
      RunEvent.installVanilla mc, RunEvent.noLoader]) true hmp
  rw [hrun, hlt, hev]
  refine ⟨rfl, by simp, fun m l => ⟨?_, ?_⟩⟩ <;> simp

theorem run_tasks_vanilla_path_witness :
    (run_tasks ⟨['n'], 0, [], []⟩
      ⟨true, some ⟨some ['1'], none, none, none, 0, []⟩,
        true, true, none, none, true, true, true⟩
      ['n']).launchTarget = some ['1'] :=
  (run_tasks_vanilla_path ⟨['n'], 0, [], []⟩
    ⟨true, some ⟨some ['1'], none, none, none, 0, []⟩,
      true, true, none, none, true, true, true⟩
    ['n'] ⟨some ['1'], none, none, none, 0, []⟩ ['1']
    rfl rfl rfl rfl rfl rfl rfl (by decide) (by decide) rfl).1

/-- C6: submitting an empty player display name makes the settings save
return false without writing the settings file, and makes the orchestrated
run abort immediately: the run reports failure with no stage event at all
(no manifest fetch, no install stage, no launch) and nothing written. -/
theorem empty_nickname_aborts (cfg : LocalConfig) (env : RunEnv) :
    save_local_config cfg [] none none env.save1WriteOk =
      ⟨false, cfg, false⟩ ∧
    run_tasks cfg env [] = ⟨false, [], none, false⟩ :=
  ⟨rfl, rfl⟩
